import Mathlib

/-!
Shallow embedding of the `_WebSocket` helper class from
`tempest/common/compute.py`: the HTTP→WebSocket upgrade handshake, the
reduced frame codec (`send_frame`, `receive_frame`) and connection
teardown (`close`).  Bytes are modelled as `Nat`, the transport as an
oracle: the list of byte sequences that successive `recv` calls return.
-/

namespace Tempest

/-- Distinguishes the two failure modes of the `receive_frame` model:
an out-of-bounds access to `header[1]` (Python `IndexError`), and the
oracle of `recv` results running out while the code would still block. -/
inductive RecvErr where
  | indexError : RecvErr
  | blocked : RecvErr
deriving DecidableEq, Repr

/-- The fixed mask key hard-coded in `send_frame`: `mask = [7, 2, 1, 9]`. -/
def mask : List Nat := [7, 2, 1, 9]

/-- `_WebSocket.send_frame`: the exact byte sequence passed to
`sendall`.  First byte 130 (binary opcode with FIN), second byte
`len(data) | 128` (mask bit plus 7-bit length), then the four mask
bytes, then every data byte XORed with `mask[i % 4]`. -/
def send_frame (data : List Nat) : List Nat :=
  [130, data.length ||| 128]
    ++ mask
    ++ (List.range data.length).map (fun i => data.getD i 0 ^^^ mask.getD (i % 4) 0)

/-- `_WebSocket.receive_frame`, driven by the oracle of `recv` results.
`recv(2)` pops the next oracle entry as the header; an empty header
returns the `None` sentinel (`Except.ok none`); a header whose second
byte has non-zero low 7 bits makes the payload `recv` pop the next
entry; otherwise the loop reads another header.  A header of length 1
makes `header[1]` an out-of-bounds access. -/
def receive_frame : List (List Nat) → Except RecvErr (Option (List Nat))
  | [] => Except.error RecvErr.blocked
  | header :: rest =>
    if header.length = 0 then Except.ok none
    else
      match header[1]? with
      | none => Except.error RecvErr.indexError
      | some b =>
        if b &&& 127 > 0 then
          match rest with
          | [] => Except.error RecvErr.blocked
          | payload :: _ => Except.ok (some payload)
        else receive_frame rest

/-- The precondition that every `recv(2)` result consumed as a frame
header by `receive_frame` has length 0 or 2 (a real `recv(2)` can also
return a single byte; this predicate rules that out along the path the
code actually takes). -/
def headersOk : List (List Nat) → Bool
  | [] => true
  | h :: rest =>
    if h.length = 0 then true
    else if h.length = 2 then
      if h.getD 1 0 &&& 127 > 0 then true else headersOk rest
    else false

/-- `response.find(b'\r\n\r\n') >= 0`: the buffer contains the
4-byte header terminator CR LF CR LF as a contiguous run. -/
def hasTerm : List Nat → Bool
  | [] => false
  | x :: rest => List.isPrefixOf [13, 10, 13, 10] (x :: rest) || hasTerm rest

/-- The accumulation loop of `_WebSocket._upgrade`:
`while len(data) > 0 and self.response.find(b'\r\n\r\n') < 0:` —
`resp` is the accumulated response, `data` the most recent `recv`
result, and the oracle list supplies the further `recv` results.
`none` models the loop still wanting to read once the oracle is
exhausted (the real code would block). -/
def upgradeLoop (resp data : List Nat) : List (List Nat) → Option (List Nat)
  | [] =>
    if 0 < data.length ∧ hasTerm resp = false then none else some resp
  | c :: rest =>
    if 0 < data.length ∧ hasTerm resp = false then upgradeLoop (resp ++ c) c rest
    else some resp

/-- `_WebSocket._upgrade`'s read phase: one unconditional first `recv`
(`self.response = data = self._socket.recv(4096)`) followed by the
accumulation loop. -/
def upgrade : List (List Nat) → Option (List Nat)
  | [] => none
  | c :: rest => upgradeLoop c c rest

/-- Python's `socket.SHUT_WR`. -/
def SHUT_WR : Nat := 1

/-- Python's `socket.SHUT_RDWR`. -/
def SHUT_RDWR : Nat := 2

/-- A socket operation recorded by the `close` model. -/
inductive SocketOp where
  | shutdown (how : Nat) : SocketOp
  | closeSock : SocketOp
deriving DecidableEq, Repr

/-- `_WebSocket.close`: on state `some ()` (socket reference present)
it performs `shutdown(1)` then `close()` and nulls the reference; on
state `none` it does nothing.  Returns the list of socket operations
performed and the new state of `self._socket`. -/
def close : Option Unit → List SocketOp × Option Unit
  | some _ => ([SocketOp.shutdown 1, SocketOp.closeSock], none)
  | none => ([], none)

/-- `_WebSocket._upgrade`'s request string `reqdata`, built exactly as
the source concatenates it, with `url.hostname`, `url.port` and
`url.query` as parameters. -/
def reqdata (hostname : String) (port : Nat) (query : String) : String :=
  "GET /websockify HTTP/1.1\r\n"
    ++ ("Host: " ++ hostname ++ ":" ++ toString port ++ "\r\n")
    ++ "Upgrade: websocket\r\nConnection: Upgrade\r\n"
    ++ ("Cookie: " ++ query ++ "\r\n")
    ++ "Sec-WebSocket-Key: x3JJHMbDL1EzLkh9GBhXDw==\r\n"
    ++ "Sec-WebSocket-Version: 13\r\n"
    ++ "Sec-WebSocket-Protocol: binary\r\n\r\n"

/-- The upgrade request as the spec words it: a GET line for the fixed
path `/websockify` and the seven listed headers, each line terminated
by CR LF, the whole request terminated by a blank CR LF line. -/
def specRequest (hostname : String) (port : Nat) (query : String) : String :=
  ("GET /websockify HTTP/1.1" ++ "\r\n")
    ++ (("Host: " ++ hostname ++ ":" ++ toString port) ++ "\r\n")
    ++ ("Upgrade: websocket" ++ "\r\n")
    ++ ("Connection: Upgrade" ++ "\r\n")
    ++ (("Cookie: " ++ query) ++ "\r\n")
    ++ ("Sec-WebSocket-Key: x3JJHMbDL1EzLkh9GBhXDw==" ++ "\r\n")
    ++ ("Sec-WebSocket-Version: 13" ++ "\r\n")
    ++ ("Sec-WebSocket-Protocol: binary" ++ "\r\n")
    ++ "\r\n"

/-- C1: for every payload `P` with `len(P) ≤ 125`, `send_frame P` is
exactly `2 + 4 + len(P)` bytes: byte 0 is `0x82`, byte 1 is
`0x80 ||| len(P)`, bytes 2..5 are the fixed mask `[7,2,1,9]`, and byte
`6+i` is `P[i] XOR mask[i % 4]` for every `i < len(P)`. -/
theorem send_frame_spec (data : List Nat) (hlen : data.length ≤ 125) :
    (send_frame data).length = 2 + 4 + data.length ∧
    (send_frame data)[0]? = some 130 ∧
    (send_frame data)[1]? = some (128 ||| data.length) ∧
    ((send_frame data).drop 2).take 4 = mask ∧
    ∀ i, i < data.length →
      (send_frame data)[6 + i]? = some (data.getD i 0 ^^^ mask.getD (i % 4) 0) := by
  refine ⟨?_, rfl, ?_, rfl, ?_⟩
  · simp [send_frame, mask]
    omega
  · show some (data.length ||| 128) = some (128 ||| data.length)
    rw [Nat.lor_comm]
  · intro i hi
    have hsplit : send_frame data =
        [130, data.length ||| 128, 7, 2, 1, 9]
          ++ (List.range data.length).map
              (fun i => data.getD i 0 ^^^ mask.getD (i % 4) 0) := rfl
    rw [hsplit, List.getElem?_append_right (by simp)]
    have h6 : 6 + i - (0 + 1 + 1 + 1 + 1 + 1 + 1) = i := by omega
    simp only [List.length_cons, List.length_nil, h6]
    rw [List.getElem?_map, List.getElem?_range hi]
    rfl

/-- C1 witness: the hypothesis is satisfied at the concrete payload
`[104, 101]` and the length equation holds there. -/
theorem send_frame_spec_witness :
    ([104, 101] : List Nat).length ≤ 125 ∧
      (send_frame [104, 101]).length = 2 + 4 + ([104, 101] : List Nat).length :=
  ⟨by decide, (send_frame_spec [104, 101] (by decide)).1⟩

/-- C4: a zero-byte header read (peer closed) makes `receive_frame`
return the `None` sentinel — no exception, and not an empty sequence
presented as a valid frame. -/
theorem receive_frame_close_sentinel (rest : List (List Nat)) :
    receive_frame ([] :: rest) = Except.ok none := rfl

/-- C3: any run of zero-length frame headers (2-byte headers whose
second byte has zero low 7 bits) is skipped, and the payload of the
first header with length `N`, `1 ≤ N ≤ 125`, is returned. -/
theorem receive_frame_skip (zs : List (List Nat))
    (hz : ∀ z ∈ zs, ∃ b, z[1]? = some b ∧ b &&& 127 = 0)
    (N : Nat) (hN1 : 1 ≤ N) (hN2 : N ≤ 125)
    (hdr : List Nat) (b : Nat) (hb : hdr[1]? = some b) (hbN : b &&& 127 = N)
    (p : List Nat) (hp : p.length = N) (rest : List (List Nat)) :
    receive_frame (zs ++ hdr :: p :: rest) = Except.ok (some p) := by
  induction zs with
  | nil =>
    have hlen : 1 < hdr.length := (List.getElem?_eq_some.mp hb).1
    simp only [List.nil_append, receive_frame]
    rw [if_neg (by omega), hb]
    simp only [hbN]
    rw [if_pos (by omega)]
  | cons z zs ih =>
    obtain ⟨b0, hb0, h0⟩ := hz z (List.mem_cons_self z zs)
    have hlen : 1 < z.length := (List.getElem?_eq_some.mp hb0).1
    simp only [List.cons_append, receive_frame]
    rw [if_neg (by omega), hb0]
    simp only [h0]
    rw [if_neg (by omega)]
    exact ih fun w hw => hz w (List.mem_cons_of_mem z hw)

/-- C3 witness: one zero-length header `[130, 128]` (second byte's low
7 bits are 0) followed by a header announcing length 2 and the 2-byte
payload `[65, 66]`. -/
theorem receive_frame_skip_witness :
    receive_frame [[130, 128], [130, 2], [65, 66]] = Except.ok (some [65, 66]) :=
  receive_frame_skip [[130, 128]]
    (by intro z hz; simp only [List.mem_singleton] at hz; subst hz; exact ⟨128, rfl, by decide⟩)
    2 (by decide) (by decide) [130, 2] 2 rfl (by decide) [65, 66] rfl []

/-- C5 counterexample: a header announcing length 2 followed by a
transport that delivers the payload across partial reads (`[65]` now,
`[66]` later) makes `receive_frame` return the 1-byte result of its
single `recv`, not 2 bytes. -/
theorem receive_frame_partial_read_cex :
    receive_frame [[130, 2], [65], [66]] = Except.ok (some [65]) ∧
      ([65] : List Nat).length ≠ 2 := by
  exact ⟨rfl, by decide⟩

/-- C5 amended: for a header whose decoded length `L` (low 7 bits of
the second header byte) is positive, `receive_frame` issues a single
`recv(L)` and returns that one read's bytes unmodified (no unmasking);
it returns exactly `L` bytes only when that single read delivers all
of them. -/
theorem receive_frame_single_recv (hdr : List Nat) (b : Nat) (hb : hdr[1]? = some b)
    (hpos : 0 < b &&& 127) (c : List Nat) (hc : c.length ≤ b &&& 127)
    (rest : List (List Nat)) :
    receive_frame (hdr :: c :: rest) = Except.ok (some c) := by
  have hlen : 1 < hdr.length := (List.getElem?_eq_some.mp hb).1
  simp only [receive_frame]
  rw [if_neg (by omega), hb]
  exact if_pos hpos

/-- C5 amended witness: header `[130, 5]`, one read delivering 5 bytes. -/
theorem receive_frame_single_recv_witness :
    receive_frame [[130, 5], [119, 111, 114, 108, 100]] =
      Except.ok (some [119, 111, 114, 108, 100]) :=
  receive_frame_single_recv [130, 5] 5 rfl (by decide)
    [119, 111, 114, 108, 100] (by decide) []

/-- C10: `receive_frame` avoids the out-of-bounds access to
`header[1]` exactly under the precondition that every read consumed as
a header returns 0 or 2 bytes; a 1-byte header read makes the access
out of bounds and `receive_frame` fail, rather than return the
sentinel or a frame. -/
theorem receive_frame_header_bounds :
    (∀ reads, headersOk reads = true →
      receive_frame reads ≠ Except.error RecvErr.indexError) ∧
    (∀ b rest, receive_frame ([b] :: rest) = Except.error RecvErr.indexError) := by
  constructor
  · intro reads
    induction reads with
    | nil => intro _; simp [receive_frame]
    | cons h rest ih =>
      intro hok
      by_cases h0 : h.length = 0
      · simp [receive_frame, h0]
      · have hok2 : h.length = 2 ∧
            (h.getD 1 0 &&& 127 > 0 ∨ headersOk rest = true) := by
          by_cases h2 : h.length = 2
          · refine ⟨h2, ?_⟩
            by_cases hv : h.getD 1 0 &&& 127 > 0
            · exact Or.inl hv
            · right
              unfold headersOk at hok
              rw [if_neg h0, if_pos h2, if_neg hv] at hok
              exact hok
          · exfalso
            unfold headersOk at hok
            rw [if_neg h0, if_neg h2] at hok
            exact Bool.false_ne_true hok
        obtain ⟨h2, hrest⟩ := hok2
        have hget : h[1]? = some (h.getD 1 0) := by
          rw [List.getD_eq_getElem?_getD]
          cases hx : h[1]? with
          | none => exact absurd (List.getElem?_eq_none_iff.mp hx) (by omega)
          | some v => rfl
        simp only [receive_frame, hget]
        rw [if_neg h0]
        by_cases hv : h.getD 1 0 &&& 127 > 0
        · rw [if_pos hv]
          cases rest with
          | nil => simp
          | cons p ps => simp
        · rw [if_neg hv]
          exact ih (hrest.resolve_left hv)
  · intro b rest
    rfl

/-- C10 witness: a transport whose header reads all have length 0 or 2
never produces the out-of-bounds failure. -/
theorem receive_frame_header_bounds_witness :
    receive_frame [[130, 128], [130, 1], [99]] ≠ Except.error RecvErr.indexError :=
  receive_frame_header_bounds.1 [[130, 128], [130, 1], [99]] (by decide)

/-- Helper: if no partial accumulation of the remaining chunks brings
the terminator into the buffer but the full accumulation does, the
loop consumes every chunk and stops with the full buffer. -/
theorem upgradeLoop_consume (chunks : List (List Nat)) : ∀ resp data : List Nat,
    0 < data.length →
    (∀ k, k < chunks.length → hasTerm (resp ++ (chunks.take k).flatten) = false) →
    (∀ c ∈ chunks, c ≠ []) →
    hasTerm (resp ++ chunks.flatten) = true →
    upgradeLoop resp data chunks = some (resp ++ chunks.flatten) := by
  induction chunks with
  | nil =>
    intro resp data _ _ _ ht
    simp only [List.flatten_nil, List.append_nil] at ht
    simp [upgradeLoop, ht]
  | cons c rest ih =>
    intro resp data hd hk hc ht
    have hresp : hasTerm resp = false := by
      have := hk 0 (by simp)
      simpa using this
    have hcne : c ≠ [] := hc c (List.mem_cons_self c rest)
    simp only [upgradeLoop]
    rw [if_pos ⟨hd, hresp⟩]
    have step := ih (resp ++ c) c (by cases c with
      | nil => exact absurd rfl hcne
      | cons x xs => simp)
      (by
        intro k hklt
        have := hk (k + 1) (by simpa using Nat.succ_lt_succ hklt)
        simpa [List.append_assoc] using this)
      (fun w hw => hc w (List.mem_cons_of_mem c hw))
      (by simpa [List.append_assoc] using ht)
    rw [step]
    simp [List.append_assoc]

/-- C2: when the concatenation of the partial reads contains the
header terminator only at the very end (no proper accumulated prefix
contains it), the handshake loop stops exactly after accumulating all
chunks, returning the whole buffer; and a zero-byte read always stops
the loop at once. -/
theorem upgrade_handshake_termination (chunks : List (List Nat))
    (hne : chunks ≠ [])
    (hnz : ∀ c ∈ chunks, c ≠ [])
    (hterm : hasTerm chunks.flatten = true)
    (hbefore : ∀ k, k < chunks.length → hasTerm ((chunks.take k).flatten) = false) :
    upgrade chunks = some chunks.flatten ∧
      ∀ resp rest, upgradeLoop resp [] rest = some resp := by
  constructor
  · cases chunks with
    | nil => exact absurd rfl hne
    | cons c rest =>
      have hcne : c ≠ [] := hnz c (List.mem_cons_self c rest)
      simp only [upgrade]
      have step := upgradeLoop_consume rest c c
        (by cases c with
          | nil => exact absurd rfl hcne
          | cons x xs => simp)
        (by
          intro k hklt
          have := hbefore (k + 1) (by simpa using Nat.succ_lt_succ hklt)
          simpa using this)
        (fun w hw => hnz w (List.mem_cons_of_mem c hw))
        (by simpa using hterm)
      rw [step]
      simp
  · intro resp rest
    cases rest with
    | nil => simp [upgradeLoop]
    | cons c cs => simp [upgradeLoop]

/-- C2 witness: the terminator split across two reads is found only
once both are accumulated. -/
theorem upgrade_handshake_termination_witness :
    upgrade [[72, 13, 10], [13, 10]] = some [72, 13, 10, 13, 10] := by
  have h := upgrade_handshake_termination [[72, 13, 10], [13, 10]]
    (by decide) (by decide) (by decide)
    (by decide)
  exact h.1

/-- C8: any response that contains the header terminator is accepted
as handshake success, whatever its other content — no status-line or
`Sec-WebSocket-Accept` validation is applied to the bytes. -/
theorem upgrade_accepts_any_response (R : List Nat) (hR : hasTerm R = true) :
    upgrade [R] = some R := by
  simp [upgrade, upgradeLoop, hR]

/-- C8 witness: a response that is not a valid HTTP 101 reply at all
is still accepted. -/
theorem upgrade_accepts_any_response_witness :
    upgrade [[88, 88, 13, 10, 13, 10]] = some [88, 88, 13, 10, 13, 10] :=
  upgrade_accepts_any_response [88, 88, 13, 10, 13, 10] (by decide)

/-- C6 counterexample: the first `close` on an open socket records
`shutdown 1` (`SHUT_WR`, write direction only) and never a
`shutdown SHUT_RDWR` (both directions). -/
theorem close_shutdown_not_both_cex :
    (close (some ())).1 = [SocketOp.shutdown SHUT_WR, SocketOp.closeSock] ∧
      SocketOp.shutdown SHUT_RDWR ∉ (close (some ())).1 := by
  decide

/-- C6 amended: on the first call with an open socket, `close` sends a
shutdown signal for the write direction only (`shutdown(1)`,
`SHUT_WR`) and then closes the socket, nulling the reference. -/
theorem close_shutdown_wr_then_close :
    close (some ()) = ([SocketOp.shutdown SHUT_WR, SocketOp.closeSock], none) := rfl

/-- C9: `close` is idempotent — after any first call the socket
reference is null, and a second call performs no socket operation. -/
theorem close_idempotent (s : Option Unit) :
    close (close s).2 = ([], none) := by
  cases s <;> rfl

/-- C7: the upgrade request sent during construction is exactly the
literal HTTP/1.1 request the spec lists — a GET for `/websockify` and
the seven headers, each line CR LF-terminated, ending with a blank
CR LF line. -/
theorem reqdata_matches_spec (h q : String) (p : Nat) :
    reqdata h p q = specRequest h p q := by
  simp only [reqdata, specRequest, String.append_assoc]
  rfl

end Tempest
